import Mathlib

/-!
Verification of the httprunner `hrp` step engine (step_request.go and the
StepTestCaseWithOptionalArgs runner) against its natural-language spec.

The Go code is shallowly embedded: Go `interface\x7b\x7d` values that can flow
through the request body pipeline are modelled by the inductive `GoValue`;
Go maps (`map[string]interface\x7b\x7d`, `map[string]string`) are modelled by
association lists (first occurrence wins on lookup, assignment replaces in
place or appends); byte slices are `List Nat`; `int64` fields are `Int`.
External collaborators (the Parser, the HTTP client, the gzip/zlib/brotli
decoder constructors, the child SessionRunner) are cut at their call sites:
their outcomes are inputs to the embedded functions, while all control flow,
data flow and mutation performed by the embedded Go functions themselves is
translated faithfully from the source.
-/

/-- A runtime Go value as it can appear in a parsed request body or in a
variable scope: `nil`, `bool`, `int`, `float64` (carried by its decimal
rendering, since no claim depends on float arithmetic), `string`, `[]byte`,
`bytes.Buffer`, `map[string]interface\x7b\x7d` and `[]interface\x7b\x7d`. -/
inductive GoValue where
  | VNull : GoValue
  | VBool (b : Bool) : GoValue
  | VInt (n : Int) : GoValue
  | VFloat (render : String) : GoValue
  | VString (s : String) : GoValue
  | VBytes (bs : List Nat) : GoValue
  | VBuffer (bs : List Nat) : GoValue
  | VMap (m : List (String × GoValue)) : GoValue
  | VSeq (l : List GoValue) : GoValue

/-- First-match association-list lookup, the observable behaviour of a Go
map read `m[k]` (our lists never carry duplicate keys when they model a Go
map). -/
def assocFind {α : Type} (l : List (String × α)) (k : String) : Option α :=
  match l with
  | [] => none
  | kv :: rest => if kv.1 = k then some kv.2 else assocFind rest k

/-- Go map assignment `m[k] = v`: replace the first entry with key `k`,
or append a new entry. -/
def assocSet {α : Type} (l : List (String × α)) (k : String) (v : α) :
    List (String × α) :=
  match l with
  | [] => [(k, v)]
  | kv :: rest => if kv.1 = k then (k, v) :: rest else kv :: assocSet rest k v

/-- Whether a key is present, the Go `_, ok := m[k]` test. -/
def containsKey {α : Type} (l : List (String × α)) (k : String) : Bool :=
  match l with
  | [] => false
  | kv :: rest => if kv.1 = k then true else containsKey rest k

theorem assocFind_set_self {α : Type} (l : List (String × α)) (k : String) (v : α) :
    assocFind (assocSet l k v) k = some v := by
  induction l with
  | nil => simp [assocSet, assocFind]
  | cons kv rest ih =>
    by_cases h : kv.1 = k <;> simp [assocSet, assocFind, h, ih]

theorem assocFind_set_ne {α : Type} (l : List (String × α)) (k k2 : String) (v : α)
    (h : k2 ≠ k) : assocFind (assocSet l k v) k2 = assocFind l k2 := by
  induction l with
  | nil => simp [assocSet, assocFind, Ne.symm h]
  | cons kv rest ih =>
    by_cases hk : kv.1 = k
    · simp [assocSet, assocFind, hk, Ne.symm h]
    · simp only [assocSet, hk, if_neg]
      by_cases hk2 : kv.1 = k2 <;> simp [assocFind, hk2, ih]

/-- The shared step descriptor `TStep`, restricted to the fields the claims
under verification read: the step name, the request method and url (the
`Request` payload fields used by the `Name()` derivations) and the
`Extract` mapping (variable name to JMESPath). -/
structure TStep where
  name : String
  method : String
  url : String
  extract : List (String × String)

/-- Builder wrapper `StepRequestWithOptionalArgs` (holds the shared step). -/
structure StepRequestWithOptionalArgs where
  step : TStep

/-- Builder wrapper `StepRequestExtraction` (holds the shared step). -/
structure StepRequestExtraction where
  step : TStep

/-- Builder wrapper `StepRequestValidation` (holds the shared step). -/
structure StepRequestValidation where
  step : TStep

/-- Go: `StepRequestWithOptionalArgs.Name` returns the step name when
non-empty, otherwise derives it from the request method and url via
`fmt.Sprintf` with pattern percent-v space percent-s. -/
def StepRequestWithOptionalArgs.Name (s : StepRequestWithOptionalArgs) : String :=
  if s.step.name ≠ "" then s.step.name
  else s.step.method ++ " " ++ s.step.url

/-- Go: `StepRequestExtraction.Name` returns `s.step.Name` unconditionally. -/
def StepRequestExtraction.Name (s : StepRequestExtraction) : String :=
  s.step.name

/-- Go: `StepRequestValidation.Name` returns the step name when non-empty,
otherwise derives it from the request method and url. -/
def StepRequestValidation.Name (s : StepRequestValidation) : String :=
  if s.step.name ≠ "" then s.step.name
  else s.step.method ++ " " ++ s.step.url

/-- Go: `StepRequestWithOptionalArgs.Extract` assigns a freshly made empty
map to `s.step.Extract` and wraps the step as a `StepRequestExtraction`. -/
def StepRequestWithOptionalArgs.Extract (s : StepRequestWithOptionalArgs) :
    StepRequestExtraction :=
  ⟨{ s.step with extract := [] }⟩

/-- Go: `StepRequestExtraction.WithJmesPath` performs the map assignment
`s.step.Extract[varName] = jmesPath`. -/
def StepRequestExtraction.WithJmesPath (s : StepRequestExtraction)
    (jmesPath varName : String) : StepRequestExtraction :=
  ⟨{ s.step with extract := assocSet s.step.extract varName jmesPath }⟩

/-- A concrete step with an empty name, used to exhibit the behaviour of the
three `Name()` implementations. -/
def unnamedGetStep : TStep :=
  { name := "", method := "GET", url := "/u/1", extract := [] }

/-- C3 counterexample: `StepRequestExtraction.Name` does NOT derive the
name from the request method and url when the underlying step name is
empty; it returns the empty name unchanged, so the claim that all three
request-step variants derive the METHOD-space-URL name is false. -/
theorem stepRequestExtraction_name_not_derived_cex :
    unnamedGetStep.name = "" ∧
    StepRequestExtraction.Name ⟨unnamedGetStep⟩ = "" ∧
    StepRequestExtraction.Name ⟨unnamedGetStep⟩ ≠
      unnamedGetStep.method ++ " " ++ unnamedGetStep.url := by
  refine ⟨rfl, rfl, ?_⟩
  decide

/-- C3 (amended): when the underlying step name is empty,
`StepRequestWithOptionalArgs.Name` and `StepRequestValidation.Name` derive
the METHOD-space-URL name, while `StepRequestExtraction.Name` returns the
(empty) underlying name unchanged. -/
theorem stepName_derivation (s : TStep) (h : s.name = "") :
    StepRequestWithOptionalArgs.Name ⟨s⟩ = s.method ++ " " ++ s.url ∧
    StepRequestValidation.Name ⟨s⟩ = s.method ++ " " ++ s.url ∧
    StepRequestExtraction.Name ⟨s⟩ = s.name := by
  refine ⟨?_, ?_, rfl⟩ <;>
    simp [StepRequestWithOptionalArgs.Name, StepRequestValidation.Name, h]

/-- C3 witness: the amended statement evaluated on a concrete unnamed GET
step. -/
theorem stepName_derivation_witness :
    StepRequestWithOptionalArgs.Name ⟨unnamedGetStep⟩ = "GET /u/1" ∧
    StepRequestValidation.Name ⟨unnamedGetStep⟩ = "GET /u/1" ∧
    StepRequestExtraction.Name ⟨unnamedGetStep⟩ = "" := by
  have h := stepName_derivation unnamedGetStep rfl
  exact ⟨h.1.trans (by decide), h.2.1.trans (by decide), h.2.2⟩

/-- C10: `Extract()` always reinitializes the extractor mapping to an empty
map, discarding every extractor registered before the call; each subsequent
`WithJmesPath(path, varName)` binds `varName` to `path` in that map while
preserving all bindings for other variable names. -/
theorem extract_reinit_and_accumulate (s : TStep) (e : StepRequestExtraction)
    (jmesPath varName v2 : String) (h : v2 ≠ varName) :
    (StepRequestWithOptionalArgs.Extract ⟨s⟩).step.extract = [] ∧
    assocFind (e.WithJmesPath jmesPath varName).step.extract varName =
      some jmesPath ∧
    assocFind (e.WithJmesPath jmesPath varName).step.extract v2 =
      assocFind e.step.extract v2 := by
  refine ⟨rfl, ?_, ?_⟩
  · exact assocFind_set_self _ _ _
  · exact assocFind_set_ne _ _ _ _ h

/-- C10 witness: evaluated on a step that already carries an extractor
binding, which `Extract()` discards; then two accumulated bindings. -/
theorem extract_reinit_and_accumulate_witness :
    (StepRequestWithOptionalArgs.Extract
      ⟨{ unnamedGetStep with extract := [("old", "body.old")] }⟩).step.extract = [] ∧
    assocFind ((StepRequestWithOptionalArgs.Extract ⟨unnamedGetStep⟩
      |>.WithJmesPath "body.id" "uid"
      |>.WithJmesPath "body.name" "uname").step.extract) "uname" =
      some "body.name" ∧
    assocFind ((StepRequestWithOptionalArgs.Extract ⟨unnamedGetStep⟩
      |>.WithJmesPath "body.id" "uid"
      |>.WithJmesPath "body.name" "uname").step.extract) "uid" =
      some "body.id" := by
  have h := extract_reinit_and_accumulate
    { unnamedGetStep with extract := [("old", "body.old")] }
    (StepRequestWithOptionalArgs.Extract ⟨unnamedGetStep⟩
      |>.WithJmesPath "body.id" "uid")
    "body.name" "uname" "uid" (by decide)
  refine ⟨h.1, h.2.1, ?_⟩
  rw [h.2.2]
  decide

/-- Lower-case an ASCII letter, identity elsewhere. -/
def asciiLower (c : Char) : Char :=
  if 65 ≤ c.toNat ∧ c.toNat ≤ 90 then Char.ofNat (c.toNat + 32) else c

/-- ASCII case-insensitive string comparison, the behaviour of Go
`strings.EqualFold` on the header names that occur here (Go additionally
folds non-ASCII letters; no claim involves such header names). -/
def eqFold (a b : String) : Bool :=
  a.data.map asciiLower == b.data.map asciiLower

/-- Whether the second character list starts the first. -/
def charListLeads : List Char → List Char → Bool
  | [], _ => true
  | _ :: _, [] => false
  | c :: cs, d :: ds => c == d && charListLeads cs ds

/-- Go `strings.HasPrefix s pre` (which also underlies the Content-Type
dispatch in `prepareBody`). -/
def strStartsWith (s pre : String) : Bool :=
  charListLeads pre.data s.data

/-- Go `http.Header.Get`: the first value stored under the (case
insensitively matched) key, or the empty string when absent. -/
def headerGet (hs : List (String × String)) (k : String) : String :=
  match hs with
  | [] => ""
  | kv :: rest => if eqFold kv.1 k then kv.2 else headerGet rest k

/-- Go `http.Header.Set`: replace every value stored under the key with the
single given value. -/
def headerSet (hs : List (String × String)) (k v : String) :
    List (String × String) :=
  hs.filter (fun kv => !eqFold kv.1 k) ++ [(k, v)]

/-- Go `http.Header.Add`: append a value under the key. -/
def headerAdd (hs : List (String × String)) (k v : String) :
    List (String × String) :=
  hs ++ [(k, v)]

/-- Standard UTF-8 encoding of one character, as Go strings are stored. -/
def utf8Char (c : Char) : List Nat :=
  let n := c.toNat
  if n < 0x80 then [n]
  else if n < 0x800 then [0xC0 + n / 0x40, 0x80 + n % 0x40]
  else if n < 0x10000 then
    [0xE0 + n / 0x1000, 0x80 + n / 0x40 % 0x40, 0x80 + n % 0x40]
  else
    [0xF0 + n / 0x40000, 0x80 + n / 0x1000 % 0x40, 0x80 + n / 0x40 % 0x40,
      0x80 + n % 0x40]

/-- The UTF-8 bytes of a string; `len(s)` and `[]byte(s)` in Go. -/
def utf8Encode (s : String) : List Nat :=
  s.data.foldr (fun c acc => utf8Char c ++ acc) []

/-- Code-point-wise comparison of character lists (on UTF-8 strings this
agrees with the byte-wise order Go `sort.Strings` uses). -/
def charListLe : List Char → List Char → Bool
  | [], _ => true
  | _ :: _, [] => false
  | c :: cs, d :: ds =>
    if c.toNat < d.toNat then true
    else if d.toNat < c.toNat then false
    else charListLe cs ds

/-- String order used when Go sorts map keys. -/
def strLe (a b : String) : Bool :=
  charListLe a.data b.data

/-- Insertion step for sorting an association list by key. -/
def insertByKey {α : Type} (kv : String × α) :
    List (String × α) → List (String × α)
  | [] => [kv]
  | x :: xs => if strLe kv.1 x.1 then kv :: x :: xs else x :: insertByKey kv xs

/-- Sort an association list by key; this realizes the sorted key order in
which Go `encoding/json` marshals a map and `url.Values.Encode` emits its
pairs (byte-wise string order, which agrees with code-point order). -/
def sortByKey {α : Type} (l : List (String × α)) : List (String × α) :=
  l.foldr insertByKey []

/-- Comma-joined list of strings. -/
def joinComma : List String → String
  | [] => ""
  | [x] => x
  | x :: y :: rest => x ++ "," ++ joinComma (y :: rest)

/-- Space-joined list of strings. -/
def joinSpace : List String → String
  | [] => ""
  | [x] => x
  | x :: y :: rest => x ++ " " ++ joinSpace (y :: rest)

/-- Lowercase hexadecimal digit (Go `encoding/json` uses lowercase in its
backslash-u escapes). -/
def hexLower (n : Nat) : Char :=
  "0123456789abcdef".data.getD n "0".data.head!

/-- Uppercase hexadecimal digit (Go `net/url` percent-escapes use
uppercase). -/
def hexUpper (n : Nat) : Char :=
  "0123456789ABCDEF".data.getD n "0".data.head!

/-- Escaping of one character inside a JSON string literal, matching the
standard-library-compatible encoder used by the repository (quotes,
backslash, the common control escapes, backslash-u for other controls, and
HTML-escaping of angle brackets and ampersand). -/
def jsonEscapeChar (c : Char) : String :=
  if c = Char.ofNat 34 then String.singleton (Char.ofNat 92) ++ String.singleton (Char.ofNat 34)
  else if c = Char.ofNat 92 then String.singleton (Char.ofNat 92) ++ String.singleton (Char.ofNat 92)
  else if c = Char.ofNat 10 then String.singleton (Char.ofNat 92) ++ "n"
  else if c = Char.ofNat 13 then String.singleton (Char.ofNat 92) ++ "r"
  else if c = Char.ofNat 9 then String.singleton (Char.ofNat 92) ++ "t"
  else if c = Char.ofNat 60 then String.singleton (Char.ofNat 92) ++ "u003c"
  else if c = Char.ofNat 62 then String.singleton (Char.ofNat 92) ++ "u003e"
  else if c = Char.ofNat 38 then String.singleton (Char.ofNat 92) ++ "u0026"
  else if c.toNat < 0x20 then
    String.singleton (Char.ofNat 92) ++ "u00" ++
      String.singleton (hexLower (c.toNat / 16)) ++
      String.singleton (hexLower (c.toNat % 16))
  else String.singleton c

/-- A JSON string literal for `s`. -/
def jsonQuote (s : String) : String :=
  String.singleton (Char.ofNat 34) ++
    s.data.foldr (fun c acc => jsonEscapeChar c ++ acc) "" ++
    String.singleton (Char.ofNat 34)

/-- The standard base64 alphabet; Go marshals `[]byte` as a base64 JSON
string. -/
def base64Alphabet : List Char :=
  "ABCDEFGHIJKLMNOPQRSTUVWXYZabcdefghijklmnopqrstuvwxyz0123456789+/".data

/-- Standard base64 encoding with padding. -/
def base64Encode : List Nat → String
  | [] => ""
  | [a] =>
    String.singleton (base64Alphabet.getD (a / 4 % 64) "A".data.head!) ++
    String.singleton (base64Alphabet.getD (a % 4 * 16) "A".data.head!) ++ "=="
  | [a, b] =>
    String.singleton (base64Alphabet.getD (a / 4 % 64) "A".data.head!) ++
    String.singleton (base64Alphabet.getD (a % 4 * 16 + b / 16 % 16) "A".data.head!) ++
    String.singleton (base64Alphabet.getD (b % 16 * 4) "A".data.head!) ++ "="
  | a :: b :: c :: rest =>
    String.singleton (base64Alphabet.getD (a / 4 % 64) "A".data.head!) ++
    String.singleton (base64Alphabet.getD (a % 4 * 16 + b / 16 % 16) "A".data.head!) ++
    String.singleton (base64Alphabet.getD (b % 16 * 4 + c / 64 % 4) "A".data.head!) ++
    String.singleton (base64Alphabet.getD (c % 64) "A".data.head!) ++
    base64Encode rest

mutual

/-- Go `json.Marshal` (standard-library-compatible configuration) on the
embeddable runtime values: `nil`, booleans, numbers, strings (escaped),
byte slices and buffers as base64 strings, maps as objects with keys in
sorted order, slices as arrays. Floats render via their carried decimal
form. -/
def jsonMarshal : GoValue → String
  | .VNull => "null"
  | .VBool true => "true"
  | .VBool false => "false"
  | .VInt n => toString n
  | .VFloat render => render
  | .VString s => jsonQuote s
  | .VBytes bs => jsonQuote (base64Encode bs)
  | .VBuffer bs => jsonQuote (base64Encode bs)
  | .VMap m =>
    "\x7b" ++ joinComma ((sortByKey (jsonPairs m)).map
      (fun kv => jsonQuote kv.1 ++ ":" ++ kv.2)) ++ "\x7d"
  | .VSeq l => "[" ++ joinComma (jsonList l) ++ "]"

/-- The members of a JSON object, each value rendered, keys still raw (the
keys are sorted before assembly, as Go marshals map keys in sorted
order). -/
def jsonPairs : List (String × GoValue) → List (String × String)
  | [] => []
  | (k, v) :: rest => (k, jsonMarshal v) :: jsonPairs rest

/-- The rendered elements of a JSON array. -/
def jsonList : List GoValue → List String
  | [] => []
  | v :: rest => jsonMarshal v :: jsonList rest

end

mutual

/-- Go `fmt.Sprint` on the embeddable runtime values, as used when the
request builder stringifies a form value or a query parameter: strings as
themselves, numbers and booleans in their decimal form, `nil` as the
angle-bracketed nil marker, byte slices as space-joined decimal lists,
buffers as their contents, maps as `map[...]` with sorted keys, slices
space-joined in brackets. -/
def goSprint : GoValue → String
  | .VNull => "<nil>"
  | .VBool true => "true"
  | .VBool false => "false"
  | .VInt n => toString n
  | .VFloat render => render
  | .VString s => s
  | .VBytes bs => "[" ++ joinSpace (bs.map (fun b => toString b)) ++ "]"
  | .VBuffer bs => String.mk (bs.map Char.ofNat)
  | .VMap m =>
    "map[" ++ joinSpace ((sortByKey (sprintPairs m)).map
      (fun kv => kv.1 ++ ":" ++ kv.2)) ++ "]"
  | .VSeq l => "[" ++ joinSpace (sprintList l) ++ "]"

/-- The members of a map rendering, each value rendered, keys raw. -/
def sprintPairs : List (String × GoValue) → List (String × String)
  | [] => []
  | (k, v) :: rest => (k, goSprint v) :: sprintPairs rest

/-- The rendered elements of a slice. -/
def sprintList : List GoValue → List String
  | [] => []
  | v :: rest => goSprint v :: sprintList rest

end

/-- Whether a byte stays unescaped in Go `url.QueryEscape`: ASCII letters,
digits, hyphen, underscore, dot, tilde. -/
def isUnreservedByte (b : Nat) : Bool :=
  (0x41 ≤ b && b ≤ 0x5A) || (0x61 ≤ b && b ≤ 0x7A) ||
  (0x30 ≤ b && b ≤ 0x39) || b == 45 || b == 46 || b == 95 || b == 126

/-- Go `url.QueryEscape` on one byte: unreserved bytes stay, space becomes
plus, everything else becomes an uppercase percent escape. -/
def queryEscapeByte (b : Nat) : String :=
  if isUnreservedByte b then String.singleton (Char.ofNat b)
  else if b == 32 then "+"
  else "%" ++ String.singleton (hexUpper (b / 16 % 16)) ++
    String.singleton (hexUpper (b % 16))

/-- Go `url.QueryEscape` over the UTF-8 bytes of a string. -/
def queryEscape (s : String) : String :=
  (utf8Encode s).foldr (fun b acc => queryEscapeByte b ++ acc) ""

/-- Ampersand-joined list of strings. -/
def joinAmp : List String → String
  | [] => ""
  | [x] => x
  | x :: y :: rest => x ++ "&" ++ joinAmp (y :: rest)

/-- Go `url.Values.Encode` for the form built in `prepareBody`: each map
entry contributes escaped key `=` escaped `fmt.Sprint` of the value, pairs
sorted by key and joined with ampersands. -/
def formEncode (m : List (String × GoValue)) : String :=
  joinAmp ((sortByKey (m.map (fun kv => (kv.1, goSprint kv.2)))).map
    (fun kv => queryEscape kv.1 ++ "=" ++ queryEscape kv.2))

/-- The slice of the Go `http.Request` state that `prepareHeaders` and
`prepareBody` mutate: the header multimap, the declared `ContentLength`,
and the body bytes. -/
structure HttpRequest where
  headers : List (String × String)
  contentLength : Int
  body : Option (List Nat)
  deriving DecidableEq

/-- The two error values `prepareBody` itself can produce (parser errors
are cut before this function: its `data` argument is the already parsed
body). -/
inductive BodyErr where
  | inconsistentContentType (ct : String) : BodyErr
  | unexpectedBodyType : BodyErr
  deriving DecidableEq

/-- The Go error text of each `prepareBody` error. -/
def BodyErr.text : BodyErr → String
  | .inconsistentContentType ct =>
    "request body type inconsistent with Content-Type: " ++ ct
  | .unexpectedBodyType => "unexpected request body type"

/-- The set of parsed body types tolerated under a Content-Type starting
with application/json: the type-switch cases `bool, float64, string,`
`map[string]interface\x7b\x7d, []interface\x7b\x7d, nil` of the source. A Go
`int` is NOT among them. -/
def jsonBodyTypeOk : GoValue → Bool
  | .VBool _ => true
  | .VFloat _ => true
  | .VString _ => true
  | .VMap _ => true
  | .VSeq _ => true
  | .VNull => true
  | _ => false

/-- Store encoded body bytes and set `ContentLength` to their count, the
final two assignments of `prepareBody`. -/
def setReqBody (req : HttpRequest) (bs : List Nat) : HttpRequest :=
  { req with body := some bs, contentLength := (bs.length : Int) }

/-- Go `requestBuilder.prepareBody`, with the parser cut at its call site:
`data` is the result of `parser.Parse` on the declarative body (`none`
models a nil `Body` field, in which case the request is untouched). The
`requestMap` mirror update is not modelled (no claim reads it). -/
def prepareBody (data : Option GoValue) (req : HttpRequest) :
    Except BodyErr HttpRequest :=
  match data with
  | none => .ok req
  | some d =>
    let ct := headerGet req.headers "Content-Type"
    if strStartsWith ct "application/json" && !jsonBodyTypeOk d then
      .error (.inconsistentContentType ct)
    else
      match d with
      | .VMap m =>
        if strStartsWith ct "application/x-www-form-urlencoded" then
          .ok (setReqBody req (utf8Encode (formEncode m)))
        else
          let req2 :=
            if ct = "" then
              { req with headers :=
                headerSet req.headers "Content-Type" "application/json; charset=utf-8" }
            else req
          .ok (setReqBody req2 (utf8Encode (jsonMarshal (.VMap m))))
      | .VSeq l =>
        let req2 :=
          if ct = "" then
            { req with headers :=
              headerSet req.headers "Content-Type" "application/json; charset=utf-8" }
          else req
        .ok (setReqBody req2 (utf8Encode (jsonMarshal (.VSeq l))))
      | .VString s => .ok (setReqBody req (utf8Encode s))
      | .VBytes bs => .ok (setReqBody req bs)
      | .VBuffer bs => .ok (setReqBody req bs)
      | _ => .error .unexpectedBodyType

/-- A request whose Content-Type header is exactly application/json, as
`prepareHeaders` would have realized it before `prepareBody` runs. -/
def jsonCtReq : HttpRequest :=
  { headers := [("Content-Type", "application/json")], contentLength := 0,
    body := none }

/-- C2 counterexample: a body that parses to the integer 3 (a Go `int`, as
the parser yields for integer-typed step bodies) IS rejected by the
application/json type check, although the claim says every number passes:
the type switch only tolerates `float64` numbers. -/
theorem prepareBody_int_body_rejected_cex :
    prepareBody (some (.VInt 3)) jsonCtReq =
      .error (.inconsistentContentType "application/json") ∧
    (BodyErr.inconsistentContentType "application/json").text =
      "request body type inconsistent with Content-Type: application/json" :=
  ⟨rfl, rfl⟩

/-- C2 (amended): under a Content-Type starting with application/json,
`prepareBody` returns the body-type-inconsistency error exactly when the
parsed body is not one of \x7bbool, float64, string, mapping, sequence,
nil\x7d; a Go `int` body is therefore rejected, while `float64` bodies pass
this check. -/
theorem prepareBody_json_type_check_iff (d : GoValue) (req : HttpRequest)
    (h : strStartsWith (headerGet req.headers "Content-Type")
      "application/json" = true) :
    (prepareBody (some d) req =
      .error (.inconsistentContentType (headerGet req.headers "Content-Type")))
    ↔ jsonBodyTypeOk d = false := by
  cases d <;> simp [prepareBody, jsonBodyTypeOk, h] <;> try (split <;> simp)

/-- C2 witness: the amended equivalence applied to a concrete `[]byte`
body, which is outside the tolerated set and hence rejected. -/
theorem prepareBody_json_type_check_iff_witness :
    prepareBody (some (.VBytes [1])) jsonCtReq =
      .error (.inconsistentContentType
        (headerGet jsonCtReq.headers "Content-Type")) := by
  have h := prepareBody_json_type_check_iff (.VBytes [1]) jsonCtReq (by decide)
  exact h.mpr (by decide)

/-- C5: for a mapping body under a form-urlencoded Content-Type,
`prepareBody` encodes the URL-encoded form of the mapping and sets
`ContentLength` to its byte length, discarding whatever `ContentLength`
the request carried before (for example one adopted from a supplied
Content-Length header); and every successful `prepareBody` run leaves
`ContentLength` equal to the byte length of the encoded body. -/
theorem prepareBody_form_urlencoded_spec :
    (∀ (m : List (String × GoValue)) (req : HttpRequest),
      strStartsWith (headerGet req.headers "Content-Type")
        "application/x-www-form-urlencoded" = true →
      prepareBody (some (.VMap m)) req =
        .ok { req with
              body := some (utf8Encode (formEncode m)),
              contentLength := ((utf8Encode (formEncode m)).length : Int) }) ∧
    (∀ (d : GoValue) (req r : HttpRequest), prepareBody (some d) req = .ok r →
      ∃ bs, r.body = some bs ∧ r.contentLength = (bs.length : Int)) := by
  constructor
  · intro m req hp
    simp [prepareBody, jsonBodyTypeOk, hp, setReqBody]
  · intro d req r h
    cases d <;> simp only [prepareBody] at h <;> split at h <;>
      try exact (Except.noConfusion h)
    all_goals try split at h
    all_goals first
      | exact (Except.noConfusion h)
      | (injection h with h2; subst h2; exact ⟨_, rfl, rfl⟩)

/-- C5 witness: the mapping a to 1, b to 2 under form-urlencoded yields the
wire body a=1&b=2 with ContentLength 7, overriding a previously adopted
ContentLength of 99. -/
theorem prepareBody_form_urlencoded_spec_witness :
    prepareBody (some (.VMap [("a", .VString "1"), ("b", .VString "2")]))
      { headers := [("Content-Type", "application/x-www-form-urlencoded")],
        contentLength := 99, body := none } =
      .ok { headers := [("Content-Type", "application/x-www-form-urlencoded")],
            contentLength := 7, body := some (utf8Encode "a=1&b=2") } := by
  have h := prepareBody_form_urlencoded_spec.1
    [("a", .VString "1"), ("b", .VString "2")]
    { headers := [("Content-Type", "application/x-www-form-urlencoded")],
      contentLength := 99, body := none } (by decide)
  exact h.trans (by rfl)

/-- C6: a mapping or sequence body is JSON-encoded; when the Content-Type
header is unset the default application/json with utf-8 charset is set,
and when it is already set (and, for mappings, is not form-urlencoded) the
existing Content-Type value is left untouched while the body is still
JSON-encoded. -/
theorem prepareBody_json_default_spec :
    (∀ (m : List (String × GoValue)) (req : HttpRequest),
      headerGet req.headers "Content-Type" = "" →
      prepareBody (some (.VMap m)) req =
        .ok { headers := headerSet req.headers "Content-Type"
                "application/json; charset=utf-8",
              contentLength := ((utf8Encode (jsonMarshal (.VMap m))).length : Int),
              body := some (utf8Encode (jsonMarshal (.VMap m))) }) ∧
    (∀ (l : List GoValue) (req : HttpRequest),
      headerGet req.headers "Content-Type" = "" →
      prepareBody (some (.VSeq l)) req =
        .ok { headers := headerSet req.headers "Content-Type"
                "application/json; charset=utf-8",
              contentLength := ((utf8Encode (jsonMarshal (.VSeq l))).length : Int),
              body := some (utf8Encode (jsonMarshal (.VSeq l))) }) ∧
    (∀ (m : List (String × GoValue)) (req : HttpRequest),
      headerGet req.headers "Content-Type" ≠ "" →
      strStartsWith (headerGet req.headers "Content-Type")
        "application/x-www-form-urlencoded" = false →
      prepareBody (some (.VMap m)) req =
        .ok { req with
              contentLength := ((utf8Encode (jsonMarshal (.VMap m))).length : Int),
              body := some (utf8Encode (jsonMarshal (.VMap m))) }) ∧
    (∀ (l : List GoValue) (req : HttpRequest),
      headerGet req.headers "Content-Type" ≠ "" →
      prepareBody (some (.VSeq l)) req =
        .ok { req with
              contentLength := ((utf8Encode (jsonMarshal (.VSeq l))).length : Int),
              body := some (utf8Encode (jsonMarshal (.VSeq l))) }) := by
  have e1 : strStartsWith "" "application/json" = false := rfl
  have e2 : strStartsWith "" "application/x-www-form-urlencoded" = false := rfl
  refine ⟨?_, ?_, ?_, ?_⟩
  · intro m req h
    simp [prepareBody, jsonBodyTypeOk, h, e1, e2, setReqBody]
  · intro l req h
    simp [prepareBody, jsonBodyTypeOk, h, e1, setReqBody]
  · intro m req hne hform
    simp [prepareBody, jsonBodyTypeOk, hne, hform, setReqBody]
  · intro l req hne
    simp [prepareBody, jsonBodyTypeOk, hne, setReqBody]

/-- C6 witness: a POST body of the sequence 1, 2, 3 with no Content-Type
gets the default JSON Content-Type and the wire body [1,2,3] of length 7. -/
theorem prepareBody_json_default_spec_witness :
    prepareBody (some (.VSeq [.VInt 1, .VInt 2, .VInt 3]))
      { headers := [], contentLength := 0, body := none } =
      .ok { headers := [("Content-Type", "application/json; charset=utf-8")],
            contentLength := 7, body := some (utf8Encode "[1,2,3]") } := by
  have h := prepareBody_json_default_spec.2.1 [.VInt 1, .VInt 2, .VInt 3]
    { headers := [], contentLength := 0, body := none } rfl
  exact h.trans (by rfl)

/-- Modelled from the spec: `mergeMap` is defined outside the provided
sources (only its call site in `prepareHeaders` is given). Per the spec,
step headers are merged over config headers and the step wins on key
collision: the result keeps every step entry and adds each config entry
whose key the step map does not contain. -/
def mergeMap (m override : List (String × String)) : List (String × String) :=
  m ++ override.filter (fun kv => !containsKey m kv.1)

/-- Nonempty all-digit decimal parse with accumulator. -/
def parseDigitsAux : List Char → Nat → Option Nat
  | [], acc => some acc
  | c :: cs, acc =>
    if 48 ≤ c.toNat ∧ c.toNat ≤ 57 then
      parseDigitsAux cs (acc * 10 + (c.toNat - 48))
    else none

/-- Decimal digits to a natural number; empty input is rejected. -/
def parseDigits : List Char → Option Nat
  | [] => none
  | c :: cs => parseDigitsAux (c :: cs) 0

/-- Go `strconv.ParseInt(value, 10, 64)`: optional sign, nonempty digits,
64-bit signed range check. -/
def parseIntGo (s : String) : Option Int :=
  match s.data with
  | '+' :: ds =>
    (parseDigits ds).bind (fun n =>
      if n ≤ 2 ^ 63 - 1 then some (n : Int) else none)
  | '-' :: ds =>
    (parseDigits ds).bind (fun n =>
      if n ≤ 2 ^ 63 then some (-(n : Int)) else none)
  | ds =>
    (parseDigits ds).bind (fun n =>
      if n ≤ 2 ^ 63 - 1 then some (n : Int) else none)

/-- One iteration of the header loop in `prepareHeaders`: pseudo headers
(name beginning with a colon) are skipped; otherwise the header is added
via `Header.Add`, and a nonempty numeric Content-Length value is adopted
as the declared `ContentLength`. -/
def addHeaderStep (r : HttpRequest) (kv : String × String) : HttpRequest :=
  if strStartsWith kv.1 ":" then r
  else
    let r2 := { r with headers := headerAdd r.headers kv.1 kv.2 }
    if eqFold kv.1 "Content-Length" && kv.2 != "" then
      match parseIntGo kv.2 with
      | some l => { r2 with contentLength := l }
      | none => r2
    else r2

/-- Go `requestBuilder.prepareHeaders`, with the parser cut at its call
site: header values are taken as already interpolated (`ParseHeaders` maps
every key and value through interpolation; with the parser modelled as the
identity on realized strings the merged entries are used as given). The
cookie loop and the `requestMap` mirror update of the source are not
modelled: no claim reads them. `configHeaders = none` models a nil config
header map, in which case the step headers are used unmerged. -/
def prepareHeaders (stepHeaders : List (String × String))
    (configHeaders : Option (List (String × String))) (req : HttpRequest) :
    HttpRequest :=
  let merged :=
    match configHeaders with
    | some ch => mergeMap stepHeaders ch
    | none => stepHeaders
  merged.foldl addHeaderStep req

theorem addHeaderStep_headers (r : HttpRequest) (kv : String × String) :
    (addHeaderStep r kv).headers =
      if strStartsWith kv.1 ":" then r.headers else r.headers ++ [kv] := by
  by_cases h : strStartsWith kv.1 ":" = true
  · simp [addHeaderStep, h]
  · by_cases h2 : (eqFold kv.1 "Content-Length" && kv.2 != "") = true
    · simp only [addHeaderStep, h, h2, Bool.false_eq_true, if_false, if_true]
      rcases parseIntGo kv.2 with _ | l <;> simp [headerAdd]
    · simp [addHeaderStep, h, h2, headerAdd]

theorem foldl_addHeaderStep_headers (l : List (String × String))
    (r : HttpRequest) :
    (l.foldl addHeaderStep r).headers =
      r.headers ++ l.filter (fun kv => !strStartsWith kv.1 ":") := by
  induction l generalizing r with
  | nil => simp
  | cons kv rest ih =>
    rw [List.foldl_cons, ih, List.filter_cons]
    by_cases h : strStartsWith kv.1 ":" <;>
      simp [addHeaderStep_headers, h]

theorem assocFind_append {α : Type} (a b : List (String × α)) (k : String) :
    assocFind (a ++ b) k =
      match assocFind a k with
      | some v => some v
      | none => assocFind b k := by
  induction a with
  | nil => simp [assocFind]
  | cons kv rest ih =>
    by_cases h : kv.1 = k <;> simp [assocFind, h, ih]

theorem assocFind_filter_keep {α : Type} (l : List (String × α)) (k : String)
    (p : String × α → Bool) (hp : ∀ v, p (k, v) = true) :
    assocFind (l.filter p) k = assocFind l k := by
  induction l with
  | nil => simp
  | cons kv rest ih =>
    by_cases h : kv.1 = k
    · obtain ⟨k1, v1⟩ := kv
      subst h
      simp [List.filter_cons, hp v1, assocFind]
    · rw [List.filter_cons]
      by_cases h2 : p kv = true <;> simp [h2, assocFind, h, ih]

theorem assocFind_filter_drop {α : Type} (l : List (String × α)) (k : String)
    (p : String × α → Bool) (hp : ∀ v, p (k, v) = false) :
    assocFind (l.filter p) k = none := by
  induction l with
  | nil => simp [assocFind]
  | cons kv rest ih =>
    by_cases h : kv.1 = k
    · obtain ⟨k1, v1⟩ := kv
      subst h
      simp only [List.filter_cons, hp v1]
      simpa using ih
    · rw [List.filter_cons]
      by_cases h2 : p kv = true <;> simp [h2, assocFind, h, ih]

theorem containsKey_eq_isSome {α : Type} (l : List (String × α)) (k : String) :
    containsKey l k = (assocFind l k).isSome := by
  induction l with
  | nil => simp [containsKey, assocFind]
  | cons kv rest ih =>
    by_cases h : kv.1 = k <;> simp [containsKey, assocFind, h, ih]

theorem assocFind_mergeMap (a b : List (String × String)) (k : String) :
    assocFind (mergeMap a b) k =
      match assocFind a k with
      | some v => some v
      | none => assocFind b k := by
  rw [mergeMap, assocFind_append]
  rcases ha : assocFind a k with _ | v
  · have hc : containsKey a k = false := by
      rw [containsKey_eq_isSome, ha, Option.isSome_none]
    simp only []
    exact assocFind_filter_keep b k _ (fun v => by simp [hc])
  · rfl

/-- C7: `prepareHeaders` realizes the merge of step headers over config
headers in which the step value wins on every key collision, and every
header whose name begins with a colon (an HTTP/2 pseudo header) is omitted
from the realized request's headers. -/
theorem prepareHeaders_merge_spec (stepH configH : List (String × String))
    (req : HttpRequest) (k : String) (h0 : req.headers = []) :
    (strStartsWith k ":" = true →
      assocFind (prepareHeaders stepH (some configH) req).headers k = none) ∧
    (strStartsWith k ":" = false →
      assocFind (prepareHeaders stepH (some configH) req).headers k =
        match assocFind stepH k with
        | some v => some v
        | none => assocFind configH k) := by
  have hh : (prepareHeaders stepH (some configH) req).headers =
      (mergeMap stepH configH).filter (fun kv => !strStartsWith kv.1 ":") := by
    rw [prepareHeaders]
    rw [foldl_addHeaderStep_headers, h0]
    simp
  constructor
  · intro hk
    rw [hh]
    exact assocFind_filter_drop _ k _ (fun v => by simp [hk])
  · intro hk
    rw [hh, assocFind_filter_keep _ k _ (fun v => by simp [hk])]
    exact assocFind_mergeMap stepH configH k

/-- C7 witness: with step headers X-Token=s plus the pseudo header
:authority, and config headers X-Token=c and Accept=a, the realized
request drops :authority, keeps the step value of X-Token, and inherits
Accept from the config. -/
theorem prepareHeaders_merge_spec_witness :
    assocFind (prepareHeaders [("X-Token", "s"), (":authority", "h")]
      (some [("X-Token", "c"), ("Accept", "a")])
      { headers := [], contentLength := 0, body := none }).headers
        ":authority" = none ∧
    assocFind (prepareHeaders [("X-Token", "s"), (":authority", "h")]
      (some [("X-Token", "c"), ("Accept", "a")])
      { headers := [], contentLength := 0, body := none }).headers
        "X-Token" = some "s" ∧
    assocFind (prepareHeaders [("X-Token", "s"), (":authority", "h")]
      (some [("X-Token", "c"), ("Accept", "a")])
      { headers := [], contentLength := 0, body := none }).headers
        "Accept" = some "a" := by
  refine ⟨?_, ?_, ?_⟩
  · exact (prepareHeaders_merge_spec _ _ _ ":authority" rfl).1 rfl
  · exact ((prepareHeaders_merge_spec _ _ _ "X-Token" rfl).2 rfl).trans (by rfl)
  · exact ((prepareHeaders_merge_spec _ _ _ "Accept" rfl).2 rfl).trans (by rfl)

/-- The response body reader, as `decodeResponseBody` can leave or wrap
it: the raw network reader, or a brotli, gzip or zlib decompressor over an
inner reader. -/
inductive RespBody where
  | plain (tag : String) : RespBody
  | brotliReader (inner : RespBody) : RespBody
  | gzipReader (inner : RespBody) : RespBody
  | zlibReader (inner : RespBody) : RespBody
  deriving DecidableEq

/-- Whether the top of the body reader is one of the three decompressing
readers. -/
def RespBody.isDecompressor : RespBody → Bool
  | .plain _ => false
  | _ => true

/-- The slice of the Go `http.Response` state that `decodeResponseBody`
reads and mutates. -/
structure HttpResponse where
  contentEncoding : String
  body : RespBody
  contentLength : Int
  deriving DecidableEq

/-- Go `decodeResponseBody`: switch on the Content-Encoding header; wrap
the body for br (brotli construction cannot fail), gzip, deflate; for
gzip/deflate additionally set the declared ContentLength to -1 (unknown);
any other encoding leaves the response unchanged and returns nil. The
decoder constructors are cut at their call sites: `gzipOk`/`zlibOk` state
whether `gzip.NewReader`/`zlib.NewReader` succeed on this body (they read
the stream header), and their library error is modelled by a marker text. -/
def decodeResponseBody (gzipOk zlibOk : RespBody → Bool)
    (resp : HttpResponse) : Except String HttpResponse :=
  match resp.contentEncoding with
  | "br" => .ok { resp with body := .brotliReader resp.body }
  | "gzip" =>
    if gzipOk resp.body then
      .ok { resp with body := .gzipReader resp.body, contentLength := -1 }
    else .error "gzip: invalid header"
  | "deflate" =>
    if zlibOk resp.body then
      .ok { resp with body := .zlibReader resp.body, contentLength := -1 }
    else .error "zlib: invalid header"
  | _ => .ok resp

/-- C4: on a fresh response (body not yet wrapped, ContentLength not -1)
that decodes successfully, the body ends up wrapped in a decompressing
reader exactly when Content-Encoding is br, gzip or deflate; ContentLength
becomes -1 exactly for gzip and deflate; any other encoding leaves the
response unchanged; and for gzip/deflate with failing decoder construction
an error is returned instead. -/
theorem decodeResponseBody_encoding_spec :
    (∀ (g z : RespBody → Bool) (resp r : HttpResponse),
      resp.body.isDecompressor = false → resp.contentLength ≠ -1 →
      decodeResponseBody g z resp = .ok r →
      (r.body.isDecompressor = true ↔
        resp.contentEncoding = "br" ∨ resp.contentEncoding = "gzip" ∨
          resp.contentEncoding = "deflate") ∧
      (r.contentLength = -1 ↔
        resp.contentEncoding = "gzip" ∨ resp.contentEncoding = "deflate") ∧
      (¬(resp.contentEncoding = "br" ∨ resp.contentEncoding = "gzip" ∨
          resp.contentEncoding = "deflate") → r = resp) ∧
      (resp.contentEncoding = "br" →
        r.body = .brotliReader resp.body ∧
          r.contentLength = resp.contentLength) ∧
      (resp.contentEncoding = "gzip" → r.body = .gzipReader resp.body) ∧
      (resp.contentEncoding = "deflate" → r.body = .zlibReader resp.body)) ∧
    (∀ (g z : RespBody → Bool) (resp : HttpResponse),
      resp.contentEncoding = "gzip" → g resp.body = false →
      decodeResponseBody g z resp = .error "gzip: invalid header") ∧
    (∀ (g z : RespBody → Bool) (resp : HttpResponse),
      resp.contentEncoding = "deflate" → z resp.body = false →
      decodeResponseBody g z resp = .error "zlib: invalid header") := by
  refine ⟨?_, ?_, ?_⟩
  · intro g z resp r h0 h1 hok
    unfold decodeResponseBody at hok
    split at hok
    · rename_i heq
      injection hok with h2
      subst h2
      simp_all [RespBody.isDecompressor]
    · rename_i heq
      split at hok
      · injection hok with h2
        subst h2
        simp_all [RespBody.isDecompressor]
      · exact (Except.noConfusion hok)
    · rename_i heq
      split at hok
      · injection hok with h2
        subst h2
        simp_all [RespBody.isDecompressor]
      · exact (Except.noConfusion hok)
    · rename_i heq1 heq2 heq3
      injection hok with h2
      subst h2
      simp_all
  · intro g z resp hce hg
    unfold decodeResponseBody
    rw [hce]
    simp [hg]
  · intro g z resp hce hz
    unfold decodeResponseBody
    rw [hce]
    simp [hz]

/-- C4 witness: a gzip-encoded fresh response with ContentLength 10 ends
wrapped in a gzip reader; and when gzip construction fails the decode
returns the library error. -/
theorem decodeResponseBody_encoding_spec_witness :
    (HttpResponse.mk "gzip" (.gzipReader (.plain "b")) (-1)).body.isDecompressor
      = true ∧
    decodeResponseBody (fun _ => false) (fun _ => true)
      { contentEncoding := "gzip", body := .plain "b", contentLength := 10 } =
      .error "gzip: invalid header" := by
  constructor
  · have h := decodeResponseBody_encoding_spec.1 (fun _ => true) (fun _ => true)
      { contentEncoding := "gzip", body := .plain "b", contentLength := 10 }
      { contentEncoding := "gzip", body := .gzipReader (.plain "b"),
        contentLength := -1 }
      rfl (by decide) rfl
    exact h.1.mpr (Or.inr (Or.inl rfl))
  · exact decodeResponseBody_encoding_spec.2.1 (fun _ => false) (fun _ => true)
      _ rfl rfl

/-- Modelled from the spec: `mergeVariables` is defined outside the
provided sources (only its call site at the extraction step of
`runStepRequest` is given). Per the spec, the extraction results are
merged into the step scope, overlaying the existing bindings so that
subsequent validators may reference them. -/
def mergeVariables (vars extracted : List (String × GoValue)) :
    List (String × GoValue) :=
  extracted.foldl (fun acc kv => assocSet acc kv.1 kv.2) vars

/-- The observable phases of one `runStepRequest` execution, in the order
they are emitted. Hook events record the index of the hook and the
variable scope it was evaluated in; the validate event records the scope
the validators see. -/
inductive Ev where
  | setupHook (i : Nat) (scope : List (String × GoValue)) : Ev
  | httpCall : Ev
  | decodeBody : Ev
  | teardownHook (i : Nat) (scope : List (String × GoValue)) : Ev
  | extractPhase : Ev
  | validatePhase (scope : List (String × GoValue)) : Ev

/-- The Go `StepResult`, restricted to the fields the claims read (the
`Data` payload of session data respectively child records is cut). -/
structure StepResult where
  name : String
  stepType : String
  success : Bool
  elapsed : Int
  contentSize : Int
  attachment : String
  exportVars : List (String × GoValue)

/-- The step-type tag of a request step. -/
def stepTypeRequest : String := "request"

/-- The step-type tag of a referenced-testcase step. -/
def stepTypeTestCase : String := "testcase"

/-- The outcomes of every external collaborator `runStepRequest` consults,
in the order the source consults them: `MergeStepVariables`, the three
request-builder phases, the parsed setup hooks (one entry per hook, `none`
meaning the parse succeeded), the request/response dumps when logging is
on, the HTTP client call with its elapsed milliseconds, the body decode,
the ResponseObject construction with its meta document, the teardown
hooks, the extractor output, the validator verdict and the response
content length. -/
structure ReqEnv where
  stepName : String
  mergeResult : Except String (List (String × GoValue))
  urlErr : Option String
  headersErr : Option String
  bodyErr : Option String
  requestMap : GoValue
  setupHooks : List (Option String)
  logOn : Bool
  printReqErr : Option String
  elapsed : Int
  httpErr : Option String
  decodeErr : Option String
  printRespErr : Option String
  respObjErr : Option String
  respMeta : GoValue
  teardownHooks : List (Option String)
  extractMapping : List (String × GoValue)
  validateErr : Option String
  respContentLength : Int

/-- The hook loops of `runStepRequest`: each hook is parsed in the current
scope and the loop aborts at the first parse error; an event records the
index and the scope of each evaluated hook. -/
def runHooks (mk : Nat → List (String × GoValue) → Ev)
    (scope : List (String × GoValue)) :
    Nat → List (Option String) → List Ev × Option String
  | _, [] => ([], none)
  | i, r :: rest =>
    match r with
    | some e => ([mk i scope], some e)
    | none =>
      let t := runHooks mk scope (i + 1) rest
      (mk i scope :: t.1, t.2)

/-- The scope the setup hooks see: the merged step variables with
`hrp_step_name` and `hrp_step_request` injected. -/
def hookScopeSetup (env : ReqEnv) (vars0 : List (String × GoValue)) :
    List (String × GoValue) :=
  assocSet (assocSet vars0 "hrp_step_name" (.VString env.stepName))
    "hrp_step_request" env.requestMap

/-- The scope the teardown hooks see: the setup scope with
`hrp_step_response` injected. -/
def hookScopeTeardown (env : ReqEnv) (vars0 : List (String × GoValue)) :
    List (String × GoValue) :=
  assocSet (hookScopeSetup env vars0) "hrp_step_response" env.respMeta

/-- Go `runStepRequest` before its deferred attachment update: the exact
control flow of the source over the collaborator outcomes in `env`,
returning the step result, the error of the function (`none` on success)
and the emitted phase trace. Error texts wrapped by the source
(`errors.Wrap`) carry the wrapping prefix. -/
def runStepRequestCore (env : ReqEnv) : StepResult × Option String × List Ev :=
  let res0 : StepResult :=
    { name := env.stepName, stepType := stepTypeRequest, success := false,
      elapsed := 0, contentSize := 0, attachment := "", exportVars := [] }
  match env.mergeResult with
  | .error e => (res0, some e, [])
  | .ok vars0 =>
  match env.urlErr with
  | some e => (res0, some e, [])
  | none =>
  match env.headersErr with
  | some e => (res0, some e, [])
  | none =>
  match env.bodyErr with
  | some e => (res0, some e, [])
  | none =>
  match runHooks Ev.setupHook (hookScopeSetup env vars0) 0 env.setupHooks with
  | (evs1, some e) => (res0, some ("run setup hooks failed: " ++ e), evs1)
  | (evs1, none) =>
  match (if env.logOn then env.printReqErr else none) with
  | some e => (res0, some e, evs1)
  | none =>
  let res1 := { res0 with elapsed := env.elapsed }
  match env.httpErr with
  | some e => (res1, some ("do request failed: " ++ e), evs1 ++ [.httpCall])
  | none =>
  match env.decodeErr with
  | some e => (res1, some ("decode response body failed: " ++ e),
      evs1 ++ [.httpCall, .decodeBody])
  | none =>
  match (if env.logOn then env.printRespErr else none) with
  | some e => (res1, some e, evs1 ++ [.httpCall, .decodeBody])
  | none =>
  match env.respObjErr with
  | some e => (res1, some ("init ResponseObject error: " ++ e),
      evs1 ++ [.httpCall, .decodeBody])
  | none =>
  match runHooks Ev.teardownHook (hookScopeTeardown env vars0) 0
      env.teardownHooks with
  | (evs2, some e) => (res1, some ("run teardown hooks failed: " ++ e),
      evs1 ++ [.httpCall, .decodeBody] ++ evs2)
  | (evs2, none) =>
  let res2 := { res1 with exportVars := env.extractMapping }
  let vars3 := mergeVariables (hookScopeTeardown env vars0) env.extractMapping
  let trace := evs1 ++ [.httpCall, .decodeBody] ++ evs2 ++
    [.extractPhase, .validatePhase vars3]
  match env.validateErr with
  | some e => ({ res2 with contentSize := env.respContentLength }, some e, trace)
  | none => ({ res2 with success := true, contentSize := env.respContentLength },
      none, trace)

/-- Go `runStepRequest` including the deferred update that copies the
returned error text into `StepResult.Attachment`. -/
def runStepRequest (env : ReqEnv) : StepResult × Option String × List Ev :=
  match runStepRequestCore env with
  | (res, some e, tr) => ({ res with attachment := e }, some e, tr)
  | (res, none, tr) => (res, none, tr)

/-- The outcomes of the collaborators of `StepTestCaseWithOptionalArgs.Run`:
`MergeStepVariables`, the reflection deep copy of the step, and the child
`SessionRunner.Start()` together with the child summary the source reads
on success (its records, its statistics and its exported variables). -/
structure ChildEnv where
  stepName : String
  mergeErr : Option String
  copyErr : Option String
  startErr : Option String
  elapsed : Int
  childRecords : List String
  childStatTotal : Nat
  childStatSuccesses : Nat
  childStatFailures : Nat
  childExportVars : List (String × GoValue)

/-- The parent SessionRunner state that `StepTestCaseWithOptionalArgs.Run`
mutates: the session variables and the summary (success flag, records,
statistics). Records are identified by opaque tags. -/
structure ParentState where
  sessionVariables : List (String × GoValue)
  summarySuccess : Bool
  summaryRecords : List String
  statTotal : Nat
  statSuccesses : Nat
  statFailures : Nat

/-- Go `StepTestCaseWithOptionalArgs.Run`: merge variables, deep-copy the
step, start the child session; on child failure set the attachment, flip
the parent summary Success to false and return the error WITHOUT touching
session variables, records or statistics; on success export the child
variables into the session, append the child records and add the child
statistics. -/
def stepTestCaseRun (env : ChildEnv) (st : ParentState) :
    (StepResult × Option String) × ParentState :=
  let res0 : StepResult :=
    { name := env.stepName, stepType := stepTypeTestCase, success := false,
      elapsed := 0, contentSize := 0, attachment := "", exportVars := [] }
  match env.mergeErr with
  | some e => ((res0, some e), st)
  | none =>
  match env.copyErr with
  | some e => ((res0, some e), st)
  | none =>
  let res1 := { res0 with elapsed := env.elapsed }
  match env.startErr with
  | some e =>
    (({ res1 with attachment := e }, some e), { st with summarySuccess := false })
  | none =>
    let res2 := { res1 with exportVars := env.childExportVars, success := true }
    let st2 := { st with
      sessionVariables := env.childExportVars.foldl
        (fun m kv => assocSet m kv.1 kv.2) st.sessionVariables,
      summaryRecords := st.summaryRecords ++ env.childRecords,
      statTotal := st.statTotal + env.childStatTotal,
      statSuccesses := st.statSuccesses + env.childStatSuccesses,
      statFailures := st.statFailures + env.childStatFailures }
    ((res2, none), st2)

theorem runHooks_all_ok (mk : Nat → List (String × GoValue) → Ev)
    (scope : List (String × GoValue)) (l : List (Option String)) (i : Nat)
    (h : ∀ x ∈ l, x = none) :
    runHooks mk scope i l =
      ((List.range l.length).map (fun j => mk (i + j) scope), none) := by
  induction l generalizing i with
  | nil => simp [runHooks]
  | cons x rest ih =>
    have hx : x = none := h x (by simp)
    subst hx
    have ih2 := ih (i + 1) (fun y hy => h y (by simp [hy]))
    simp only [runHooks, ih2, List.length_cons, List.range_succ_eq_map,
      List.map_cons, List.map_map, Prod.mk.injEq]
    refine ⟨?_, trivial⟩
    congr 1
    apply List.map_congr_left
    intro a ha
    simp only [Function.comp_apply]
    congr 1
    omega

theorem runHooks_all_ok_zero (mk : Nat → List (String × GoValue) → Ev)
    (scope : List (String × GoValue)) (l : List (Option String))
    (h : ∀ x ∈ l, x = none) :
    runHooks mk scope 0 l =
      ((List.range l.length).map (fun j => mk j scope), none) := by
  rw [runHooks_all_ok mk scope l 0 h]
  simp

theorem runStepRequestCore_success_shape (env : ReqEnv) :
    (runStepRequestCore env).2.1 = none ∨
      (runStepRequestCore env).1.success = false := by
  simp only [runStepRequestCore]
  repeat' split
  all_goals simp

/-- A concrete child run that fails: the child session errors while
carrying one record, one failed statistic and one exportable variable. -/
def childFailEnv : ChildEnv :=
  { stepName := "call child", mergeErr := none, copyErr := none,
    startErr := some "child case failed", elapsed := 5,
    childRecords := ["child-step-1"], childStatTotal := 1,
    childStatSuccesses := 0, childStatFailures := 1,
    childExportVars := [("token", .VString "T")] }

/-- A fresh parent session state. -/
def parentState0 : ParentState :=
  { sessionVariables := [], summarySuccess := true, summaryRecords := [],
    statTotal := 0, statSuccesses := 0, statFailures := 0 }

/-- C1 counterexample: when the child `Start()` fails, the parent summary
Success is set to false as claimed, but the child's exported variable
token is NOT merged into the parent session variables and the child's
record and statistics are NOT aggregated: `Run` returns before the merge
and aggregation code. -/
theorem stepTestCase_child_failure_no_merge_cex :
    childFailEnv.childExportVars = [("token", GoValue.VString "T")] ∧
    childFailEnv.childRecords = ["child-step-1"] ∧
    (stepTestCaseRun childFailEnv parentState0).2.summarySuccess = false ∧
    assocFind (stepTestCaseRun childFailEnv parentState0).2.sessionVariables
      "token" = none ∧
    (stepTestCaseRun childFailEnv parentState0).2.summaryRecords = [] ∧
    (stepTestCaseRun childFailEnv parentState0).2.statTotal = 0 ∧
    (stepTestCaseRun childFailEnv parentState0).2.statFailures = 0 :=
  ⟨rfl, rfl, rfl, rfl, rfl, rfl, rfl⟩

/-- C1 (amended): on child failure, `Run` sets the parent summary Success
to false, fills the attachment with the error text, and returns the error
WITHOUT merging the child's exported variables and WITHOUT aggregating the
child records or statistics; the merge and the aggregation happen only
when the child session succeeds. -/
theorem stepTestCaseRun_child_failure_semantics (env : ChildEnv)
    (st : ParentState) (h1 : env.mergeErr = none) (h2 : env.copyErr = none) :
    (∀ e, env.startErr = some e →
      stepTestCaseRun env st =
        (({ name := env.stepName, stepType := stepTypeTestCase,
            success := false, elapsed := env.elapsed, contentSize := 0,
            attachment := e, exportVars := [] }, some e),
          { st with summarySuccess := false })) ∧
    (env.startErr = none →
      (stepTestCaseRun env st).2 =
        { st with
          sessionVariables := env.childExportVars.foldl
            (fun m kv => assocSet m kv.1 kv.2) st.sessionVariables,
          summaryRecords := st.summaryRecords ++ env.childRecords,
          statTotal := st.statTotal + env.childStatTotal,
          statSuccesses := st.statSuccesses + env.childStatSuccesses,
          statFailures := st.statFailures + env.childStatFailures } ∧
      (stepTestCaseRun env st).1.1.success = true ∧
      (stepTestCaseRun env st).1.1.exportVars = env.childExportVars) := by
  constructor
  · intro e he
    simp [stepTestCaseRun, h1, h2, he]
  · intro he
    simp [stepTestCaseRun, h1, h2, he]

/-- C1 witness: the amended failure branch evaluated on the concrete
failing child run against a fresh parent state. -/
theorem stepTestCaseRun_child_failure_semantics_witness :
    stepTestCaseRun childFailEnv parentState0 =
      (({ name := "call child", stepType := stepTypeTestCase,
          success := false, elapsed := 5, contentSize := 0,
          attachment := "child case failed", exportVars := [] },
        some "child case failed"),
        { sessionVariables := [], summarySuccess := false,
          summaryRecords := [], statTotal := 0, statSuccesses := 0,
          statFailures := 0 }) := by
  have h := (stepTestCaseRun_child_failure_semantics childFailEnv parentState0
    rfl rfl).1 "child case failed" rfl
  exact h.trans (by rfl)

/-- C8: whenever `runStepRequest` returns a non-nil error, the returned
StepResult has Success false and the Attachment holds the error text (the
deferred update applies on every return path); and the same holds for
`StepTestCaseWithOptionalArgs.Run` when the child session fails. -/
theorem step_error_sets_attachment_and_failure :
    (∀ (env : ReqEnv) (e : String), (runStepRequest env).2.1 = some e →
      (runStepRequest env).1.success = false ∧
      (runStepRequest env).1.attachment = e) ∧
    (∀ (cenv : ChildEnv) (st : ParentState) (e : String),
      cenv.mergeErr = none → cenv.copyErr = none → cenv.startErr = some e →
      (stepTestCaseRun cenv st).1.1.success = false ∧
      (stepTestCaseRun cenv st).1.1.attachment = e) := by
  constructor
  · intro env e h
    have hs := runStepRequestCore_success_shape env
    rcases heq : runStepRequestCore env with ⟨res, err, tr⟩
    rw [heq] at hs
    simp only [runStepRequest, heq] at h ⊢
    rcases err with _ | e2
    · simp at h
    · have he : e2 = e := by simpa using h
      subst he
      simp only [Option.some.injEq, reduceCtorEq, false_or] at hs
      simpa using hs
  · intro cenv st e h1 h2 h3
    simp [stepTestCaseRun, h1, h2, h3]

/-- A concrete request step whose HTTP call fails. -/
def httpFailEnv : ReqEnv :=
  { stepName := "s1", mergeResult := .ok [], urlErr := none,
    headersErr := none, bodyErr := none, requestMap := .VMap [],
    setupHooks := [none], logOn := false, printReqErr := none, elapsed := 12,
    httpErr := some "net down", decodeErr := none, printRespErr := none,
    respObjErr := none, respMeta := .VMap [], teardownHooks := [],
    extractMapping := [], validateErr := none, respContentLength := 0 }

/-- C8 witness: a failing HTTP call and a failing child session, each at a
concrete input. -/
theorem step_error_sets_attachment_and_failure_witness :
    (runStepRequest httpFailEnv).1.success = false ∧
    (runStepRequest httpFailEnv).1.attachment = "do request failed: net down" ∧
    (stepTestCaseRun childFailEnv parentState0).1.1.success = false ∧
    (stepTestCaseRun childFailEnv parentState0).1.1.attachment =
      "child case failed" := by
  have h1 := step_error_sets_attachment_and_failure.1 httpFailEnv
    "do request failed: net down" rfl
  have h2 := step_error_sets_attachment_and_failure.2 childFailEnv parentState0
    "child case failed" rfl rfl rfl
  exact ⟨h1.1, h1.2, h2.1, h2.2⟩

/-- C9: in a run where every phase succeeds (the validator may still
fail), the phases occur in exactly this order: all setup hooks (in a scope
holding the injected hrp_step_name and hrp_step_request), then the HTTP
call, then the body decode, then all teardown hooks (in a scope further
holding hrp_step_response), then extraction, then validation; the
extraction results become the step's ExportVars and the validators run
over the teardown scope overlaid with the extraction results. -/
theorem runStepRequest_phase_order (env : ReqEnv)
    (vars0 : List (String × GoValue))
    (hm : env.mergeResult = .ok vars0) (hu : env.urlErr = none)
    (hh : env.headersErr = none) (hb : env.bodyErr = none)
    (hs : ∀ x ∈ env.setupHooks, x = none)
    (hpr : (if env.logOn then env.printReqErr else none) = none)
    (hhttp : env.httpErr = none) (hd : env.decodeErr = none)
    (hps : (if env.logOn then env.printRespErr else none) = none)
    (hro : env.respObjErr = none)
    (ht : ∀ x ∈ env.teardownHooks, x = none) :
    (runStepRequest env).2.2 =
      (List.range env.setupHooks.length).map
        (fun i => Ev.setupHook i (hookScopeSetup env vars0)) ++
      [Ev.httpCall, Ev.decodeBody] ++
      (List.range env.teardownHooks.length).map
        (fun i => Ev.teardownHook i (hookScopeTeardown env vars0)) ++
      [Ev.extractPhase,
        Ev.validatePhase
          (mergeVariables (hookScopeTeardown env vars0) env.extractMapping)] ∧
    (runStepRequest env).1.exportVars = env.extractMapping ∧
    assocFind (hookScopeSetup env vars0) "hrp_step_name" =
      some (.VString env.stepName) ∧
    assocFind (hookScopeSetup env vars0) "hrp_step_request" =
      some env.requestMap ∧
    assocFind (hookScopeTeardown env vars0) "hrp_step_response" =
      some env.respMeta := by
  have hrs := runHooks_all_ok_zero Ev.setupHook (hookScopeSetup env vars0)
    env.setupHooks hs
  have hrt := runHooks_all_ok_zero Ev.teardownHook (hookScopeTeardown env vars0)
    env.teardownHooks ht
  refine ⟨?_, ?_, ?_, ?_, ?_⟩
  · rcases hv : env.validateErr with _ | e <;>
      simp [runStepRequest, runStepRequestCore, hm, hu, hh, hb, hrs, hpr,
        hhttp, hd, hps, hro, hrt, hv, List.append_assoc]
  · rcases hv : env.validateErr with _ | e <;>
      simp [runStepRequest, runStepRequestCore, hm, hu, hh, hb, hrs, hpr,
        hhttp, hd, hps, hro, hrt, hv]
  · rw [hookScopeSetup, assocFind_set_ne _ _ _ _ (by decide), assocFind_set_self]
  · rw [hookScopeSetup, assocFind_set_self]
  · rw [hookScopeTeardown, assocFind_set_self]

/-- A concrete fully successful request step: two setup hooks, one
teardown hook, an extraction binding uid to 42. -/
def phaseEnv0 : ReqEnv :=
  { stepName := "s1", mergeResult := .ok [("a", .VString "x")], urlErr := none,
    headersErr := none, bodyErr := none, requestMap := .VMap [],
    setupHooks := [none, none], logOn := false, printReqErr := none,
    elapsed := 3, httpErr := none, decodeErr := none, printRespErr := none,
    respObjErr := none, respMeta := .VMap [("status_code", .VInt 200)],
    teardownHooks := [none], extractMapping := [("uid", .VInt 42)],
    validateErr := none, respContentLength := 11 }

/-- C9 witness: the phase order statement evaluated on the concrete
successful step. -/
theorem runStepRequest_phase_order_witness :
    (runStepRequest phaseEnv0).2.2 =
      [Ev.setupHook 0 (hookScopeSetup phaseEnv0 [("a", .VString "x")]),
        Ev.setupHook 1 (hookScopeSetup phaseEnv0 [("a", .VString "x")]),
        Ev.httpCall, Ev.decodeBody,
        Ev.teardownHook 0 (hookScopeTeardown phaseEnv0 [("a", .VString "x")]),
        Ev.extractPhase,
        Ev.validatePhase (mergeVariables
          (hookScopeTeardown phaseEnv0 [("a", .VString "x")])
          [("uid", .VInt 42)])] ∧
    (runStepRequest phaseEnv0).1.exportVars = [("uid", GoValue.VInt 42)] ∧
    assocFind (hookScopeSetup phaseEnv0 [("a", .VString "x")])
      "hrp_step_name" = some (.VString "s1") ∧
    assocFind (hookScopeTeardown phaseEnv0 [("a", .VString "x")])
      "hrp_step_response" = some (.VMap [("status_code", .VInt 200)]) := by
  have h := runStepRequest_phase_order phaseEnv0 [("a", .VString "x")]
    rfl rfl rfl rfl (by simp [phaseEnv0]) rfl rfl rfl rfl rfl
    (by simp [phaseEnv0])
  exact ⟨h.1.trans (by rfl), h.2.1.trans (by rfl), h.2.2.1, h.2.2.2.2⟩
